import Mathlib

/-!
PDF Automation Tool — verification of the operation pipeline.

A shallow embedding of `src/app.py` (Flask backend of the PDF automation
tool).  The filesystem is modelled as an association list from paths to
file contents; each `PDFProcessor` method becomes a function from a
filesystem state to a new state together with an `Except` result, mirroring
the Python control flow (an exception leaves the filesystem as it was at
the raise point, since each method performs all its writes after all of
its reads).  The wall-clock timestamp used by `generate_filename` is passed
in as an explicit `String` parameter.
-/

set_option maxRecDepth 8000
set_option autoImplicit false

deriving instance DecidableEq for Except

namespace PdfTool

/-- A PDF page.  `rotation` is the `/Rotate` metadata entry, `text` the text
`extract_text` would recover, `overlays` the stack of watermark labels that
have been merged onto the page. -/
structure Page where
  rotation : Int
  text : String
  overlays : List String
deriving Repr, DecidableEq

/-- A PDF document: an ordered sequence of pages. -/
structure Pdf where
  pages : List Page
deriving Repr, DecidableEq

/-- Contents of a file on disk.  `corrupt` stands for bytes the PDF library
fails to parse (PyPDF2 raises on them). -/
inductive FileContent where
  | pdf (doc : Pdf)
  | textFile (contents : String)
  | corrupt
deriving Repr, DecidableEq

/-- Errors raised by the pipeline: `fileNotFound` models the Python
`FileNotFoundError` raised by `open`, `parseError` the parse exceptions
of the PDF library, `valueError` the Python `ValueError` (e.g. `PageObject.rotate`
on an angle that is not a multiple of 90). -/
inductive PdfError where
  | fileNotFound (path : String)
  | parseError (path : String)
  | valueError
deriving Repr, DecidableEq

/-- The filesystem: an association list from absolute-ish path strings to
file contents. -/
abbrev FS := List (String × FileContent)

namespace FS

/-- Look up the contents of a path (`none` when the file does not exist). -/
def lookupFile (fs : FS) (p : String) : Option FileContent :=
  (fs.find? (fun e => e.1 = p)).map (·.2)

/-- Models `os.path.exists`. -/
def pathExists (fs : FS) (p : String) : Bool :=
  (fs.lookupFile p).isSome

/-- Delete a path; a no-op when the file does not exist (the source always
guards unguarded `os.remove` calls by a successful prior read, so in every
reachable state the file is present). -/
def removeFile (fs : FS) (p : String) : FS :=
  fs.filter (fun e => e.1 ≠ p)

/-- Create or overwrite a file. -/
def setFile (fs : FS) (p : String) (c : FileContent) : FS :=
  (p, c) :: fs.removeFile p

end FS

/-- Models `os.path.join` as the source uses it (both folder constants are bare
relative names, so the join is a single separator). -/
def joinPath (dir name : String) : String :=
  dir ++ "/" ++ name

/-- The constant `UPLOAD_FOLDER` (the folder name "uploads"). -/
def UPLOAD_FOLDER : String := "uploads"

/-- The constant `OUTPUT_FOLDER` (the folder name "outputs"). -/
def OUTPUT_FOLDER : String := "outputs"

/-- The allow-list `ALLOWED_EXTENSIONS`, holding only "pdf". -/
def ALLOWED_EXTENSIONS : List String := ["pdf"]

/-- Models the Python `str.lower` (ASCII range, which is all the validation and the
claims exercise), written on the character list so that it evaluates. -/
def strLower (s : String) : String := String.mk (s.data.map Char.toLower)

/-- Models the Python `str.upper` (ASCII range), as used on the watermark label. -/
def strUpper (s : String) : String := String.mk (s.data.map Char.toUpper)

/-- Models the Python expression splitting off the segment after the last dot
(meaningful only when a dot is present, exactly as in the source where the
call is guarded by `'.' in filename`). -/
def afterLastDot (s : String) : String :=
  String.mk ((s.data.reverse.takeWhile (fun c => c ≠ '.')).reverse)

/-- The validation predicate `allowed_file` from the source:
`'.' in filename and filename.rsplit('.', 1)[1].lower() in ALLOWED_EXTENSIONS`. -/
def allowed_file (filename : String) : Bool :=
  filename.data.contains '.' &&
    ALLOWED_EXTENSIONS.contains (strLower (afterLastDot filename))

/-- The name generator `generate_filename`, producing base, underscore,
timestamp, extension in that order.  The
timestamp (formatted as YYYYMMDD_HHMMSS by the source) is an
explicit argument. -/
def generate_filename (base_name timestamp extension : String) : String :=
  base_name ++ "_" ++ timestamp ++ extension

/-! ## `PDFProcessor.merge_pdfs` -/

/-- The read loop of `merge_pdfs`: `for file_path in file_paths: if
os.path.exists(file_path): merger.append(file_path)`.  Missing paths are
skipped; a path whose bytes the library cannot parse raises at the append,
before any write has happened. -/
def readPdfs (fs : FS) (paths : List String) : Except PdfError (List Pdf) :=
  match paths with
  | [] => .ok []
  | p :: ps =>
    match fs.lookupFile p with
    | none => readPdfs fs ps
    | some (.pdf d) => (readPdfs fs ps).map (fun ds => d :: ds)
    | some _ => .error (.parseError p)

/-- The cleanup loop shared by `merge_pdfs`:
`for file_path in file_paths: if os.path.exists(file_path): os.remove(file_path)`. -/
def removeUploaded (fs : FS) (paths : List String) : FS :=
  paths.foldl FS.removeFile fs

/-- Models `PDFProcessor.merge_pdfs`: append every input that exists, write the
concatenation to `outputs/<output_filename>`, then delete the inputs.  On a
library exception the filesystem is unchanged (the raise happens before the
write). -/
def merge_pdfs (fs : FS) (file_paths : List String) (output_filename : String) :
    FS × Except PdfError String :=
  match readPdfs fs file_paths with
  | .error e => (fs, .error e)
  | .ok docs =>
    let output_path := joinPath OUTPUT_FOLDER output_filename
    let fs1 := fs.setFile output_path (.pdf ⟨(docs.map Pdf.pages).flatten⟩)
    (removeUploaded fs1 file_paths, .ok output_path)

/-! ## `PDFProcessor.add_watermark` -/

/-- Models `PDFProcessor.add_watermark`: overlay the upper-cased watermark label on
every page (the reportlab canvas draws `watermark_text.upper()` and
`page.merge_page` stamps it), write the result, then delete the input. -/
def add_watermark (fs : FS) (pdf_path watermark_text output_filename : String) :
    FS × Except PdfError String :=
  match fs.lookupFile pdf_path with
  | none => (fs, .error (.fileNotFound pdf_path))
  | some (.pdf doc) =>
    let stamped := doc.pages.map
      (fun p => { p with overlays := p.overlays ++ [strUpper watermark_text] })
    let output_path := joinPath OUTPUT_FOLDER output_filename
    let fs1 := (fs.setFile output_path (.pdf ⟨stamped⟩)).removeFile pdf_path
    (fs1, .ok output_path)
  | some _ => (fs, .error (.parseError pdf_path))

/-! ## `PDFProcessor.extract_text` -/

/-- One entry of `text_content`: `f"--- Page {page_num} ---\n{page_text}\n"`. -/
def pageBlock (page_num : Nat) (page_text : String) : String :=
  "--- Page " ++ toString page_num ++ " ---\n" ++ page_text ++ "\n"

/-- The full text: the page blocks joined by a newline, pages enumerated
from 1. -/
def fullTextOf (doc : Pdf) : String :=
  String.intercalate "\n"
    ((doc.pages.enumFrom 1).map (fun e => pageBlock e.1 e.2.text))

/-- The preview expression of `extract_text`:
`full_text[:1000] + "..." if len(full_text) > 1000 else full_text`. -/
def previewOf (full_text : String) : String :=
  if full_text.length > 1000 then full_text.take 1000 ++ "..." else full_text

/-- Models `PDFProcessor.extract_text`: concatenate the per-page text blocks, save
them as a timestamped `.txt` artifact, delete the input, and return the
artifact path together with the preview. -/
def extract_text (fs : FS) (pdf_path timestamp : String) :
    FS × Except PdfError (String × String) :=
  match fs.lookupFile pdf_path with
  | none => (fs, .error (.fileNotFound pdf_path))
  | some (.pdf doc) =>
    let full_text := fullTextOf doc
    let output_filename := generate_filename "extracted_text" timestamp ".txt"
    let output_path := joinPath OUTPUT_FOLDER output_filename
    let fs1 := (fs.setFile output_path (.textFile full_text)).removeFile pdf_path
    (fs1, .ok (output_path, previewOf full_text))
  | some _ => (fs, .error (.parseError pdf_path))

/-! ## `PDFProcessor.split_pdf` -/

/-- Models the Python `range(start, stop, step)` for nonnegative bounds and a
positive step: `[start, start+step, ...up to stop)`. -/
def pyRange (start stop step : Nat) : List Nat :=
  (List.range ((stop - start + step - 1) / step)).map (fun i => start + i * step)

/-- The artifacts one `split_pdf` call produces, in loop order: for each
chunk the generated filename `split_pages_{start+1}-{end}_{ts}.pdf` together
with the written sub-document `reader.pages[start:end]`. -/
def splitOutputs (doc : Pdf) (pages_per_file : Nat) (timestamp : String) :
    List (String × Pdf) :=
  let total_pages := doc.pages.length
  (pyRange 0 total_pages pages_per_file).map (fun start_page =>
    let end_page := min (start_page + pages_per_file) total_pages
    (generate_filename
        ("split_pages_" ++ toString (start_page + 1) ++ "-" ++ toString end_page)
        timestamp ".pdf",
     ⟨(doc.pages.drop start_page).take (end_page - start_page)⟩))

/-- Models `PDFProcessor.split_pdf`: write one artifact per chunk of
`pages_per_file` pages, delete the input, and return the artifact paths.
`pages_per_file = 0` models `range(..., 0)` raising `ValueError` before any
write. -/
def split_pdf (fs : FS) (pdf_path : String) (pages_per_file : Nat)
    (timestamp : String) : FS × Except PdfError (List String) :=
  match fs.lookupFile pdf_path with
  | none => (fs, .error (.fileNotFound pdf_path))
  | some (.pdf doc) =>
    if pages_per_file = 0 then (fs, .error .valueError)
    else
      let outs := splitOutputs doc pages_per_file timestamp
      let fs1 := outs.foldl
        (fun f o => f.setFile (joinPath OUTPUT_FOLDER o.1) (.pdf o.2)) fs
      (fs1.removeFile pdf_path, .ok (outs.map (fun o => joinPath OUTPUT_FOLDER o.1)))
  | some _ => (fs, .error (.parseError pdf_path))

/-! ## `PDFProcessor.rotate_pdf` -/

/-- The external PyPDF2 `PageObject.rotate`: raises `ValueError` unless the
angle is a multiple of 90, otherwise adds the angle to the `/Rotate` entry of the page
 -/
def pageRotate (p : Page) (angle : Int) : Except PdfError Page :=
  if angle % 90 = 0 then .ok { p with rotation := p.rotation + angle }
  else .error .valueError

/-- The per-page loop of `rotate_pdf`: the first `ValueError` aborts the
loop, otherwise the rotated pages are collected in order. -/
def rotateAll (pages : List Page) (angle : Int) : Except PdfError (List Page) :=
  match pages with
  | [] => .ok []
  | p :: ps =>
    match pageRotate p angle with
    | .error e => .error e
    | .ok q =>
      match rotateAll ps angle with
      | .error e => .error e
      | .ok qs => .ok (q :: qs)

/-- Models `PDFProcessor.rotate_pdf`: rotate every page by `angle`, write the
result, then delete the input.  A `ValueError` from the library is raised
inside the loop, before the output file is opened. -/
def rotate_pdf (fs : FS) (pdf_path : String) (angle : Int)
    (output_filename : String) : FS × Except PdfError String :=
  match fs.lookupFile pdf_path with
  | none => (fs, .error (.fileNotFound pdf_path))
  | some (.pdf doc) =>
    match rotateAll doc.pages angle with
    | .error e => (fs, .error e)
    | .ok rotated =>
      let output_path := joinPath OUTPUT_FOLDER output_filename
      let fs1 := (fs.setFile output_path (.pdf ⟨rotated⟩)).removeFile pdf_path
      (fs1, .ok output_path)
  | some _ => (fs, .error (.parseError pdf_path))

/-! ## `PDFProcessor.create_cover_letter` -/

/-- The text of the generated cover letter, assembled from the `story`
paragraphs of `create_cover_letter` (header, optional contact line, date,
company block, salutation, the three template body paragraphs, closing). -/
def coverLetterText (name position company email phone date : String) : String :=
  name ++ "\n" ++
  (if email ≠ "" || phone ≠ "" then
      String.intercalate " | "
        ((if email ≠ "" then ["Email: " ++ email] else []) ++
         (if phone ≠ "" then ["Phone: " ++ phone] else [])) ++ "\n"
    else "") ++
  date ++ "\n" ++
  company ++ "\nHiring Manager\n" ++
  "Dear Hiring Manager,\n" ++
  "I am writing to express my strong interest in the " ++ position ++
    " position at " ++ company ++
    ". With my background and passion for this field, I am confident that I would be a valuable addition to your team.\n" ++
  "In my previous experience, I have developed strong technical skills and a deep understanding of industry best practices. I am particularly drawn to this opportunity because of your company\x27s reputation for innovation and excellence.\n" ++
  "I would welcome the opportunity to discuss how my skills and enthusiasm can contribute to " ++
    company ++ "\x27s continued success. Thank you for considering my application. I look forward to hearing from you soon.\n" ++
  "Sincerely,\n" ++ name

/-- Models `PDFProcessor.create_cover_letter`: build a one-page document at
`outputs/<output_filename>` (caller-supplied name, default
`cover_letter.pdf` at the route).  It consumes no uploaded file. -/
def create_cover_letter (fs : FS) (name position company email phone date
    output_filename : String) : FS × Except PdfError String :=
  let output_path := joinPath OUTPUT_FOLDER output_filename
  let doc : Pdf := ⟨[⟨0, coverLetterText name position company email phone date, []⟩]⟩
  (fs.setFile output_path (.pdf doc), .ok output_path)

/-! ## Route layer

Each single-file route does, in order: check `allowed_file(file.filename)`
and answer 400 otherwise; stage the upload at
`uploads/<secure_filename(filename)>`; run the processor method; answer 200
with the artifact name(s) on success and 500 on an exception.  The werkzeug `secure_filename`
sanitizer is an external collaborator, passed in as a function
parameter. -/

/-- A JSON response of the route layer: HTTP status plus the payload the
claims talk about (artifact basenames, optional preview, or error text). -/
inductive RouteRes where
  | success (filenames : List String) (preview : Option String)
  | failure (status : Nat) (msg : String)
deriving Repr, DecidableEq

/-- Models `os.path.basename` for the joined paths this code builds. -/
def basename (p : String) : String :=
  String.mk ((p.data.reverse.takeWhile (fun c => c ≠ '/')).reverse)

/-- The `str(e)` text surfaced in the 500 envelope. -/
def errText : PdfError → String
  | .fileNotFound p => "No such file or directory: " ++ p
  | .parseError p => "Could not read PDF: " ++ p
  | .valueError => "Rotation angle must be a multiple of 90"

/-- The route `POST /api/watermark`. -/
def route_watermark (sanitize : String → String) (fs : FS)
    (filename : String) (content : FileContent)
    (watermark_text output_name : String) : FS × RouteRes :=
  if !allowed_file filename then
    (fs, .failure 400 "Valid PDF file required")
  else
    let file_path := joinPath UPLOAD_FOLDER (sanitize filename)
    let fs1 := fs.setFile file_path content
    match add_watermark fs1 file_path watermark_text output_name with
    | (fs2, .ok output_path) => (fs2, .success [basename output_path] none)
    | (fs2, .error e) => (fs2, .failure 500 (errText e))

/-- The route `POST /api/extract`. -/
def route_extract (sanitize : String → String) (fs : FS)
    (filename : String) (content : FileContent) (timestamp : String) :
    FS × RouteRes :=
  if !allowed_file filename then
    (fs, .failure 400 "Valid PDF file required")
  else
    let file_path := joinPath UPLOAD_FOLDER (sanitize filename)
    let fs1 := fs.setFile file_path content
    match extract_text fs1 file_path timestamp with
    | (fs2, .ok r) => (fs2, .success [basename r.1] (some r.2))
    | (fs2, .error e) => (fs2, .failure 500 (errText e))

/-- The route `POST /api/split`. -/
def route_split (sanitize : String → String) (fs : FS)
    (filename : String) (content : FileContent)
    (pages_per_file : Nat) (timestamp : String) : FS × RouteRes :=
  if !allowed_file filename then
    (fs, .failure 400 "Valid PDF file required")
  else
    let file_path := joinPath UPLOAD_FOLDER (sanitize filename)
    let fs1 := fs.setFile file_path content
    match split_pdf fs1 file_path pages_per_file timestamp with
    | (fs2, .ok outs) => (fs2, .success (outs.map basename) none)
    | (fs2, .error e) => (fs2, .failure 500 (errText e))

/-- The route `POST /api/rotate`. -/
def route_rotate (sanitize : String → String) (fs : FS)
    (filename : String) (content : FileContent)
    (angle : Int) (output_name : String) : FS × RouteRes :=
  if !allowed_file filename then
    (fs, .failure 400 "Valid PDF file required")
  else
    let file_path := joinPath UPLOAD_FOLDER (sanitize filename)
    let fs1 := fs.setFile file_path content
    match rotate_pdf fs1 file_path angle output_name with
    | (fs2, .ok output_path) => (fs2, .success [basename output_path] none)
    | (fs2, .error e) => (fs2, .failure 500 (errText e))

/-! ## Concrete sample data -/

/-- Sample pages and documents used to instantiate the theorems. -/
def pageA1 : Page := ⟨0, "alpha one", []⟩

def pageA2 : Page := ⟨0, "alpha two", []⟩

def pageB1 : Page := ⟨0, "beta one", []⟩

def pageB2 : Page := ⟨0, "beta two", []⟩

def pageB3 : Page := ⟨0, "beta three", []⟩

/-- A two-page document. -/
def docA : Pdf := ⟨[pageA1, pageA2]⟩

/-- A three-page document. -/
def docB : Pdf := ⟨[pageB1, pageB2, pageB3]⟩

/-- A 1001-character page text, long enough to trigger preview truncation. -/
def longText : String := String.mk (List.replicate 1001 'a')

/-- A document whose full extracted text exceeds 1000 characters. -/
def longDoc : Pdf := ⟨[⟨0, longText, []⟩]⟩

/-- Staging area holding only the long document. -/
def fsLong : FS := [(joinPath UPLOAD_FOLDER "long.pdf", .pdf longDoc)]

/-- Staging area holding one file the PDF library cannot parse. -/
def fsCorrupt : FS := [(joinPath UPLOAD_FOLDER "bad.pdf", FileContent.corrupt)]

/-- Staging area holding only `b.pdf`. -/
def fsOneB : FS := [(joinPath UPLOAD_FOLDER "b.pdf", .pdf docB)]

/-- Staging area holding `a.pdf` (2 pages) and `b.pdf` (3 pages). -/
def fsTwo : FS := [(joinPath UPLOAD_FOLDER "a.pdf", .pdf docA),
                   (joinPath UPLOAD_FOLDER "b.pdf", .pdf docB)]

/-! ## Filesystem lemmas -/

theorem lookupFile_nil (q : String) : FS.lookupFile [] q = none := rfl

theorem lookupFile_cons (e : String × FileContent) (t : FS) (q : String) :
    FS.lookupFile (e :: t) q = if e.1 = q then some e.2 else FS.lookupFile t q := by
  simp only [FS.lookupFile, List.find?]
  by_cases h : e.1 = q <;> simp [h]

theorem removeFile_cons (e : String × FileContent) (t : FS) (p : String) :
    FS.removeFile (e :: t) p =
      if e.1 = p then t.removeFile p else e :: t.removeFile p := by
  simp only [FS.removeFile, List.filter_cons]
  by_cases h : e.1 = p <;> simp [h]

theorem lookupFile_removeFile (fs : FS) (p q : String) :
    (fs.removeFile p).lookupFile q = if q = p then none else fs.lookupFile q := by
  induction fs with
  | nil =>
    simp [FS.removeFile, lookupFile_nil]
  | cons e t ih =>
    rw [removeFile_cons]
    by_cases hep : e.1 = p
    · rw [if_pos hep, ih, lookupFile_cons]
      by_cases hqp : q = p
      · simp [hqp]
      · have heq : ¬e.1 = q := by
          intro h
          exact hqp (by rw [← h]; exact hep)
        rw [if_neg hqp, if_neg heq, if_neg hqp]
    · rw [if_neg hep, lookupFile_cons, lookupFile_cons, ih]
      by_cases heq : e.1 = q
      · have hqp : ¬q = p := by
          intro h
          exact hep (by rw [heq, h])
        rw [if_pos heq, if_neg hqp, if_pos heq]
      · rw [if_neg heq, if_neg heq]

theorem lookupFile_setFile (fs : FS) (p : String) (c : FileContent) (q : String) :
    (fs.setFile p c).lookupFile q = if p = q then some c else fs.lookupFile q := by
  rw [FS.setFile, lookupFile_cons, lookupFile_removeFile]
  by_cases h : p = q
  · simp [h]
  · have h' : ¬q = p := fun hh => h hh.symm
    simp [h, h']

theorem lookupFile_removeUploaded (fs : FS) (l : List String) (q : String) :
    (removeUploaded fs l).lookupFile q = if q ∈ l then none else fs.lookupFile q := by
  induction l generalizing fs with
  | nil => simp [removeUploaded]
  | cons p t ih =>
    show (removeUploaded (fs.removeFile p) t).lookupFile q = _
    rw [ih, lookupFile_removeFile]
    by_cases hqt : q ∈ t
    · simp [hqt]
    · by_cases hqp : q = p <;> simp [hqt, hqp]

/-! ## Lemmas about the merge read loop -/

theorem readPdfs_ok_of_forall₂ (fs : FS) {paths : List String} {docs : List Pdf}
    (h : List.Forall₂ (fun p d => fs.lookupFile p = some (.pdf d)) paths docs) :
    readPdfs fs paths = .ok docs := by
  induction h with
  | nil => rfl
  | cons hpd _ ih => simp [readPdfs, hpd, ih, Except.map]

theorem readPdfs_ne_fileNotFound (fs : FS) (paths : List String) (q : String) :
    readPdfs fs paths ≠ .error (.fileNotFound q) := by
  induction paths with
  | nil => simp [readPdfs]
  | cons p ps ih =>
    rw [readPdfs]
    cases hl : fs.lookupFile p with
    | none => exact ih
    | some c =>
      cases c with
      | pdf d =>
        cases hr : readPdfs fs ps with
        | ok ds => simp [Except.map]
        | error e =>
          simp only [Except.map]
          intro hcontra
          exact ih (by rw [hr]; exact congrArg Except.error (Except.error.inj hcontra))
      | textFile s => simp
      | corrupt => simp

/-! ## C10: the filename validation predicate -/

/-- C10: a filename passes `allowed_file` exactly when it contains a `'.'`
and the segment after its last `'.'` equals `"pdf"` case-insensitively; in
particular `"x.PDF"` and `"x.exe.pdf"` are accepted while `"pdf"` and
`"x.pdf.exe"` are rejected. -/
theorem allowed_file_iff_last_ext_pdf :
    (∀ filename : String,
        allowed_file filename = true ↔
          filename.data.contains '.' = true ∧ strLower (afterLastDot filename) = "pdf")
    ∧ allowed_file "x.PDF" = true ∧ allowed_file "x.exe.pdf" = true
    ∧ allowed_file "pdf" = false ∧ allowed_file "x.pdf.exe" = false := by
  refine ⟨fun filename => ?_, by decide, by decide, by decide, by decide⟩
  simp [allowed_file, ALLOWED_EXTENSIONS]

/-! ## C1: the extract preview -/

/-- C1 counterexample: on a document whose full text has more than 1000
characters, the preview returned by `extract_text` is NOT the first 1000
characters of the full text (the code appends `"..."`). -/
theorem extract_preview_appends_ellipsis :
    1000 < (fullTextOf longDoc).length
    ∧ (extract_text fsLong (joinPath UPLOAD_FOLDER "long.pdf") "20240101_000000").2 ≠
        .ok (joinPath OUTPUT_FOLDER
              (generate_filename "extracted_text" "20240101_000000" ".txt"),
            (fullTextOf longDoc).take 1000) := by
  have hlt : longText.length = 1001 := by
    have h : longText.length = (List.replicate 1001 'a').length := rfl
    rw [h, List.length_replicate]
  have hlen : (fullTextOf longDoc).length = 1017 := by
    have hfull : fullTextOf longDoc =
        "--- Page " ++ toString (1 : Nat) ++ " ---\n" ++ longText ++ "\n" := rfl
    rw [hfull]
    simp only [String.length_append]
    rw [hlt]
    decide
  refine ⟨by rw [hlen]; omega, ?_⟩
  have hlook : FS.lookupFile fsLong (joinPath UPLOAD_FOLDER "long.pdf") =
      some (.pdf longDoc) := rfl
  have hres : (extract_text fsLong (joinPath UPLOAD_FOLDER "long.pdf") "20240101_000000").2 =
      .ok (joinPath OUTPUT_FOLDER
            (generate_filename "extracted_text" "20240101_000000" ".txt"),
           previewOf (fullTextOf longDoc)) := by
    simp [extract_text, hlook]
  rw [hres]
  simp only [ne_eq, Except.ok.injEq, Prod.mk.injEq, not_and]
  intro _ h2
  have h3 : previewOf (fullTextOf longDoc) = (fullTextOf longDoc).take 1000 ++ "..." := by
    simp [previewOf, hlen]
  rw [h3] at h2
  have h4 := congrArg String.length h2
  rw [String.length_append] at h4
  have h5 : ("..." : String).length = 3 := rfl
  omega

/-- C1 (amended): the preview returned by `extract_text` is the first 1000
characters of the full extracted text **followed by `"..."`** when the full
text exceeds 1000 characters, and is the full text unchanged otherwise. -/
theorem extract_preview_spec (fs : FS) (pdf_path ts : String) (doc : Pdf)
    (h : fs.lookupFile pdf_path = some (.pdf doc)) :
    (extract_text fs pdf_path ts).2 =
      .ok (joinPath OUTPUT_FOLDER (generate_filename "extracted_text" ts ".txt"),
           if 1000 < (fullTextOf doc).length
           then (fullTextOf doc).take 1000 ++ "..."
           else fullTextOf doc) := by
  simp [extract_text, h, previewOf]

/-- Witness for `extract_preview_spec` at the concrete long document. -/
theorem extract_preview_spec_witness :
    (extract_text fsLong (joinPath UPLOAD_FOLDER "long.pdf") "20240101_000000").2 =
      .ok (joinPath OUTPUT_FOLDER
            (generate_filename "extracted_text" "20240101_000000" ".txt"),
           if 1000 < (fullTextOf longDoc).length
           then (fullTextOf longDoc).take 1000 ++ "..."
           else fullTextOf longDoc) :=
  extract_preview_spec fsLong (joinPath UPLOAD_FOLDER "long.pdf") "20240101_000000"
    longDoc rfl

/-! ## C2: cleanup of staged inputs -/

/-- C2 counterexample: on a transformation failure the staged input is NOT
deleted — `add_watermark` on an unparsable staged file fails and the staged
file is still present afterwards. -/
theorem watermark_failure_keeps_staged_input :
    (add_watermark fsCorrupt (joinPath UPLOAD_FOLDER "bad.pdf") "DRAFT" "o.pdf").2 =
        .error (.parseError (joinPath UPLOAD_FOLDER "bad.pdf"))
    ∧ FS.lookupFile
        (add_watermark fsCorrupt (joinPath UPLOAD_FOLDER "bad.pdf") "DRAFT" "o.pdf").1
        (joinPath UPLOAD_FOLDER "bad.pdf") = some .corrupt := by
  exact ⟨rfl, rfl⟩

/-- C2 (amended): every operation that takes uploaded files deletes its
staged inputs when the transformation succeeds; when the transformation
fails the filesystem is left unchanged, so the staged input remains. -/
theorem cleanup_only_on_success (fs : FS) (file_paths : List String)
    (p pdf_path w out ts : String) (k : Nat) (angle : Int)
    (hp : p ∈ file_paths) :
    ((∀ v, (merge_pdfs fs file_paths out).2 = .ok v →
        FS.lookupFile (merge_pdfs fs file_paths out).1 p = none)
      ∧ (∀ e, (merge_pdfs fs file_paths out).2 = .error e →
        (merge_pdfs fs file_paths out).1 = fs))
    ∧ ((∀ v, (add_watermark fs pdf_path w out).2 = .ok v →
        FS.lookupFile (add_watermark fs pdf_path w out).1 pdf_path = none)
      ∧ (∀ e, (add_watermark fs pdf_path w out).2 = .error e →
        (add_watermark fs pdf_path w out).1 = fs))
    ∧ ((∀ v, (extract_text fs pdf_path ts).2 = .ok v →
        FS.lookupFile (extract_text fs pdf_path ts).1 pdf_path = none)
      ∧ (∀ e, (extract_text fs pdf_path ts).2 = .error e →
        (extract_text fs pdf_path ts).1 = fs))
    ∧ ((∀ v, (split_pdf fs pdf_path k ts).2 = .ok v →
        FS.lookupFile (split_pdf fs pdf_path k ts).1 pdf_path = none)
      ∧ (∀ e, (split_pdf fs pdf_path k ts).2 = .error e →
        (split_pdf fs pdf_path k ts).1 = fs))
    ∧ ((∀ v, (rotate_pdf fs pdf_path angle out).2 = .ok v →
        FS.lookupFile (rotate_pdf fs pdf_path angle out).1 pdf_path = none)
      ∧ (∀ e, (rotate_pdf fs pdf_path angle out).2 = .error e →
        (rotate_pdf fs pdf_path angle out).1 = fs)) := by
  refine ⟨⟨?_, ?_⟩, ⟨?_, ?_⟩, ⟨?_, ?_⟩, ⟨?_, ?_⟩, ⟨?_, ?_⟩⟩
  · intro v _
    cases hr : readPdfs fs file_paths with
    | error e => simp [merge_pdfs, hr] at *
    | ok docs =>
      simp only [merge_pdfs, hr]
      rw [lookupFile_removeUploaded, if_pos hp]
  · intro e he
    cases hr : readPdfs fs file_paths with
    | error e2 => simp [merge_pdfs, hr]
    | ok docs => simp [merge_pdfs, hr] at he
  · intro v _
    cases hl : fs.lookupFile pdf_path with
    | none => simp [add_watermark, hl] at *
    | some c =>
      cases c with
      | pdf doc =>
        simp only [add_watermark, hl]
        rw [lookupFile_removeFile, if_pos rfl]
      | textFile s => simp [add_watermark, hl] at *
      | corrupt => simp [add_watermark, hl] at *
  · intro e he
    cases hl : fs.lookupFile pdf_path with
    | none => simp [add_watermark, hl]
    | some c =>
      cases c with
      | pdf doc => simp [add_watermark, hl] at he
      | textFile s => simp [add_watermark, hl]
      | corrupt => simp [add_watermark, hl]
  · intro v _
    cases hl : fs.lookupFile pdf_path with
    | none => simp [extract_text, hl] at *
    | some c =>
      cases c with
      | pdf doc =>
        simp only [extract_text, hl]
        rw [lookupFile_removeFile, if_pos rfl]
      | textFile s => simp [extract_text, hl] at *
      | corrupt => simp [extract_text, hl] at *
  · intro e he
    cases hl : fs.lookupFile pdf_path with
    | none => simp [extract_text, hl]
    | some c =>
      cases c with
      | pdf doc => simp [extract_text, hl] at he
      | textFile s => simp [extract_text, hl]
      | corrupt => simp [extract_text, hl]
  · intro v _
    cases hl : fs.lookupFile pdf_path with
    | none => simp [split_pdf, hl] at *
    | some c =>
      cases c with
      | pdf doc =>
        by_cases hk : k = 0
        · simp [split_pdf, hl, hk] at *
        · simp only [split_pdf, hl]
          rw [if_neg hk, lookupFile_removeFile]
          simp
      | textFile s => simp [split_pdf, hl] at *
      | corrupt => simp [split_pdf, hl] at *
  · intro e he
    cases hl : fs.lookupFile pdf_path with
    | none => simp [split_pdf, hl]
    | some c =>
      cases c with
      | pdf doc =>
        by_cases hk : k = 0
        · simp [split_pdf, hl, hk]
        · simp [split_pdf, hl, hk] at he
      | textFile s => simp [split_pdf, hl]
      | corrupt => simp [split_pdf, hl]
  · intro v _
    cases hl : fs.lookupFile pdf_path with
    | none => simp [rotate_pdf, hl] at *
    | some c =>
      cases c with
      | pdf doc =>
        cases hr : rotateAll doc.pages angle with
        | error e => simp [rotate_pdf, hl, hr] at *
        | ok rotated =>
          simp only [rotate_pdf, hl, hr]
          rw [lookupFile_removeFile, if_pos rfl]
      | textFile s => simp [rotate_pdf, hl] at *
      | corrupt => simp [rotate_pdf, hl] at *
  · intro e he
    cases hl : fs.lookupFile pdf_path with
    | none => simp [rotate_pdf, hl]
    | some c =>
      cases c with
      | pdf doc =>
        cases hr : rotateAll doc.pages angle with
        | error e2 => simp [rotate_pdf, hl, hr]
        | ok rotated => simp [rotate_pdf, hl, hr] at he
      | textFile s => simp [rotate_pdf, hl]
      | corrupt => simp [rotate_pdf, hl]

/-- Witness for `cleanup_only_on_success`: a concrete failing watermark call
leaves the staging area untouched, and a concrete successful extract call
deletes its staged input. -/
theorem cleanup_only_on_success_witness :
    (add_watermark fsCorrupt (joinPath UPLOAD_FOLDER "bad.pdf") "DRAFT" "o.pdf").1 =
        fsCorrupt
    ∧ FS.lookupFile
        (extract_text fsOneB (joinPath UPLOAD_FOLDER "b.pdf") "20240101_000000").1
        (joinPath UPLOAD_FOLDER "b.pdf") = none := by
  constructor
  · exact (cleanup_only_on_success fsCorrupt [joinPath UPLOAD_FOLDER "bad.pdf"]
      (joinPath UPLOAD_FOLDER "bad.pdf") (joinPath UPLOAD_FOLDER "bad.pdf")
      "DRAFT" "o.pdf" "20240101_000000" 1 90 (by decide)).2.1.2
      (.parseError (joinPath UPLOAD_FOLDER "bad.pdf")) rfl
  · exact (cleanup_only_on_success fsOneB [joinPath UPLOAD_FOLDER "b.pdf"]
      (joinPath UPLOAD_FOLDER "b.pdf") (joinPath UPLOAD_FOLDER "b.pdf")
      "DRAFT" "o.pdf" "20240101_000000" 1 90 (by decide)).2.2.1.1
      (joinPath OUTPUT_FOLDER (generate_filename "extracted_text" "20240101_000000" ".txt"),
       previewOf (fullTextOf docB)) rfl

/-! ## C3: behavior on missing staged inputs -/

/-- C3 counterexample: `merge_pdfs` does not fail when a staged input path
is missing — merging a missing `a.pdf` with a present `b.pdf` succeeds and
produces an artifact holding only the pages of `b.pdf`. -/
theorem merge_skips_missing_inputs :
    (merge_pdfs fsOneB
        [joinPath UPLOAD_FOLDER "a.pdf", joinPath UPLOAD_FOLDER "b.pdf"] "m.pdf").2 =
      .ok (joinPath OUTPUT_FOLDER "m.pdf")
    ∧ FS.lookupFile
        (merge_pdfs fsOneB
          [joinPath UPLOAD_FOLDER "a.pdf", joinPath UPLOAD_FOLDER "b.pdf"] "m.pdf").1
        (joinPath OUTPUT_FOLDER "m.pdf") = some (.pdf docB) := by
  exact ⟨rfl, rfl⟩

/-- C3 (amended): the single-file operations (watermark, extract, split,
rotate) fail with `fileNotFound` and leave the filesystem unchanged when the
staged path does not exist, but `merge_pdfs` never raises `fileNotFound`: it
skips missing inputs. -/
theorem missing_input_behavior (fs : FS) (pdf_path w out out2 ts : String)
    (k : Nat) (angle : Int) (paths : List String)
    (h : fs.lookupFile pdf_path = none) :
    add_watermark fs pdf_path w out = (fs, .error (.fileNotFound pdf_path))
    ∧ extract_text fs pdf_path ts = (fs, .error (.fileNotFound pdf_path))
    ∧ split_pdf fs pdf_path k ts = (fs, .error (.fileNotFound pdf_path))
    ∧ rotate_pdf fs pdf_path angle out = (fs, .error (.fileNotFound pdf_path))
    ∧ ∀ q, (merge_pdfs fs paths out2).2 ≠ .error (.fileNotFound q) := by
  refine ⟨by simp [add_watermark, h], by simp [extract_text, h],
    by simp [split_pdf, h], by simp [rotate_pdf, h], ?_⟩
  intro q
  cases hr : readPdfs fs paths with
  | error e =>
    simp only [merge_pdfs, hr]
    intro hcontra
    exact readPdfs_ne_fileNotFound fs paths q
      (by rw [hr]; exact congrArg Except.error (Except.error.inj hcontra))
  | ok docs => simp [merge_pdfs, hr]

/-- Witness for `missing_input_behavior` on an empty staging area. -/
theorem missing_input_behavior_witness :
    rotate_pdf [] (joinPath UPLOAD_FOLDER "ghost.pdf") 90 "r.pdf" =
      ([], .error (.fileNotFound (joinPath UPLOAD_FOLDER "ghost.pdf"))) :=
  (missing_input_behavior [] (joinPath UPLOAD_FOLDER "ghost.pdf") "W" "r.pdf" "m.pdf"
    "20240101_000000" 1 90 [] rfl).2.2.2.1

/-! ## C8: invalid extensions are rejected before staging -/

/-- C8: a filename that fails `allowed_file` makes every single-file route
answer 400 and leaves the filesystem exactly as it was — in particular no
file for that upload is ever staged. -/
theorem invalid_extension_rejected_before_staging
    (sanitize : String → String) (fs : FS) (filename : String)
    (content : FileContent) (w out ts : String) (k : Nat) (angle : Int)
    (h : allowed_file filename = false) :
    route_watermark sanitize fs filename content w out =
        (fs, .failure 400 "Valid PDF file required")
    ∧ route_extract sanitize fs filename content ts =
        (fs, .failure 400 "Valid PDF file required")
    ∧ route_split sanitize fs filename content k ts =
        (fs, .failure 400 "Valid PDF file required")
    ∧ route_rotate sanitize fs filename content angle out =
        (fs, .failure 400 "Valid PDF file required") := by
  refine ⟨?_, ?_, ?_, ?_⟩ <;>
    simp [route_watermark, route_extract, route_split, route_rotate, h]

/-- Witness for `invalid_extension_rejected_before_staging` on the upload
`"resume.docx"`. -/
theorem invalid_extension_rejected_before_staging_witness :
    route_rotate (fun s => s) fsOneB "resume.docx" .corrupt 90 "r.pdf" =
      (fsOneB, .failure 400 "Valid PDF file required") :=
  (invalid_extension_rejected_before_staging (fun s => s) fsOneB "resume.docx"
    .corrupt "W" "r.pdf" "20240101_000000" 1 90 (by decide)).2.2.2

/-! ## C7: rotating twice by 90 equals rotating once by 180 -/

theorem rotateAll_ok (pages : List Page) (angle : Int) (h : angle % 90 = 0) :
    rotateAll pages angle =
      .ok (pages.map (fun p => { p with rotation := p.rotation + angle })) := by
  induction pages with
  | nil => rfl
  | cons p ps ih => simp [rotateAll, pageRotate, h, ih]

theorem joinPath_inj_right (d a b : String) (h : joinPath d a = joinPath d b) :
    a = b := by
  have hdata := congrArg String.data h
  simp only [joinPath, String.data_append] at hdata
  have h2 := List.append_cancel_left hdata
  cases a
  cases b
  exact congrArg String.mk h2

/-- C7: uploading a PDF, rotating it by 90, re-uploading the artifact and
rotating it by 90 again yields an artifact whose per-page `/Rotate` metadata
equals that of rotating the original once by 180. -/
theorem rotate_twice_90_eq_rotate_180 (fs : FS) (pdf_path n1 n2 : String) (doc : Pdf)
    (h : fs.lookupFile pdf_path = some (.pdf doc))
    (h1 : pdf_path ≠ joinPath OUTPUT_FOLDER n1)
    (h1b : pdf_path ≠ joinPath OUTPUT_FOLDER n2)
    (h2 : n1 ≠ n2) :
    ∃ twice once : Pdf,
      FS.lookupFile
          (rotate_pdf (rotate_pdf fs pdf_path 90 n1).1 (joinPath OUTPUT_FOLDER n1) 90 n2).1
          (joinPath OUTPUT_FOLDER n2) = some (.pdf twice)
      ∧ FS.lookupFile (rotate_pdf fs pdf_path 180 n2).1 (joinPath OUTPUT_FOLDER n2) =
          some (.pdf once)
      ∧ twice.pages.map Page.rotation = once.pages.map Page.rotation
      ∧ once.pages.map Page.rotation = doc.pages.map (fun p => p.rotation + 180) := by
  have h90 : (90 : Int) % 90 = 0 := by decide
  have h180 : (180 : Int) % 90 = 0 := by decide
  have hj : joinPath OUTPUT_FOLDER n1 ≠ joinPath OUTPUT_FOLDER n2 :=
    fun hc => h2 (joinPath_inj_right OUTPUT_FOLDER n1 n2 hc)
  have hfs1 : (rotate_pdf fs pdf_path 90 n1).1 =
      (fs.setFile (joinPath OUTPUT_FOLDER n1)
        (.pdf ⟨doc.pages.map (fun p => { p with rotation := p.rotation + 90 })⟩)).removeFile
        pdf_path := by
    simp [rotate_pdf, h, rotateAll_ok _ _ h90]
  have hlook1 : FS.lookupFile (rotate_pdf fs pdf_path 90 n1).1 (joinPath OUTPUT_FOLDER n1) =
      some (.pdf ⟨doc.pages.map (fun p => { p with rotation := p.rotation + 90 })⟩) := by
    rw [hfs1, lookupFile_removeFile, if_neg (Ne.symm h1), lookupFile_setFile, if_pos rfl]
  refine ⟨⟨(doc.pages.map (fun p => { p with rotation := p.rotation + 90 })).map
            (fun p => { p with rotation := p.rotation + 90 })⟩,
          ⟨doc.pages.map (fun p => { p with rotation := p.rotation + 180 })⟩, ?_, ?_, ?_, ?_⟩
  · have hrot2 := rotateAll_ok
      (doc.pages.map (fun p => { p with rotation := p.rotation + 90 })) 90 h90
    have hstep : rotate_pdf (rotate_pdf fs pdf_path 90 n1).1 (joinPath OUTPUT_FOLDER n1) 90 n2 =
        (((rotate_pdf fs pdf_path 90 n1).1.setFile (joinPath OUTPUT_FOLDER n2)
            (.pdf ⟨(doc.pages.map (fun p => { p with rotation := p.rotation + 90 })).map
              (fun p => { p with rotation := p.rotation + 90 })⟩)).removeFile
            (joinPath OUTPUT_FOLDER n1),
         .ok (joinPath OUTPUT_FOLDER n2)) := by
      conv_lhs => rw [rotate_pdf]
      rw [hlook1]
      simp [hrot2]
    rw [hstep]
    rw [lookupFile_removeFile, if_neg (Ne.symm hj), lookupFile_setFile, if_pos rfl]
  · have hstep : rotate_pdf fs pdf_path 180 n2 =
        ((fs.setFile (joinPath OUTPUT_FOLDER n2)
            (.pdf ⟨doc.pages.map (fun p => { p with rotation := p.rotation + 180 })⟩)).removeFile
            pdf_path,
         .ok (joinPath OUTPUT_FOLDER n2)) := by
      conv_lhs => rw [rotate_pdf]
      rw [h]
      simp [rotateAll_ok _ _ h180]
    rw [hstep]
    rw [lookupFile_removeFile, if_neg (Ne.symm h1b), lookupFile_setFile, if_pos rfl]
  · simp only [List.map_map]
    apply List.map_congr_left
    intro p _
    simp [Function.comp]
    omega
  · simp only [List.map_map]
    apply List.map_congr_left
    intro p _
    simp [Function.comp]


/-- Witness for `rotate_twice_90_eq_rotate_180` on the staged `b.pdf`. -/
theorem rotate_twice_90_eq_rotate_180_witness :
    ∃ twice once : Pdf,
      FS.lookupFile
          (rotate_pdf (rotate_pdf fsOneB (joinPath UPLOAD_FOLDER "b.pdf") 90 "r1.pdf").1
            (joinPath OUTPUT_FOLDER "r1.pdf") 90 "r2.pdf").1
          (joinPath OUTPUT_FOLDER "r2.pdf") = some (.pdf twice)
      ∧ FS.lookupFile
          (rotate_pdf fsOneB (joinPath UPLOAD_FOLDER "b.pdf") 180 "r2.pdf").1
          (joinPath OUTPUT_FOLDER "r2.pdf") = some (.pdf once)
      ∧ twice.pages.map Page.rotation = once.pages.map Page.rotation
      ∧ once.pages.map Page.rotation = docB.pages.map (fun p => p.rotation + 180) :=
  rotate_twice_90_eq_rotate_180 fsOneB (joinPath UPLOAD_FOLDER "b.pdf") "r1.pdf" "r2.pdf"
    docB rfl (by decide) (by decide) (by decide)

/-! ## C9: artifact naming -/

theorem generate_filename_ts_inj (base ext ts1 ts2 : String)
    (h : generate_filename base ts1 ext = generate_filename base ts2 ext) :
    ts1 = ts2 := by
  have hdata := congrArg String.data h
  simp only [generate_filename, String.data_append, List.append_assoc] at hdata
  have h2 := List.append_cancel_left hdata
  have h3 := List.append_cancel_left h2
  have h4 := List.append_cancel_right h3
  cases ts1
  cases ts2
  exact congrArg String.mk h4

/-- C9: `extract_text` and `split_pdf` name their artifacts
`{base}_{timestamp}{ext}` through `generate_filename`, while `merge_pdfs`,
`add_watermark`, `rotate_pdf` and `create_cover_letter` use the
caller-supplied output name verbatim; and for a fixed base and extension the
generated name determines the timestamp, so requests with different
timestamps get different artifact names. -/
theorem artifact_naming (fs : FS) (pdf_path w out ts ts1 ts2 base ext : String)
    (k : Nat) (angle : Int) (paths : List String) (doc : Pdf)
    (nm pos co em ph date : String)
    (hpdf : fs.lookupFile pdf_path = some (.pdf doc)) :
    ((extract_text fs pdf_path ts).2 =
        .ok (joinPath OUTPUT_FOLDER (generate_filename "extracted_text" ts ".txt"),
             previewOf (fullTextOf doc)))
    ∧ (∀ outs, (split_pdf fs pdf_path k ts).2 = .ok outs →
        ∀ o ∈ outs, ∃ b, o = joinPath OUTPUT_FOLDER (generate_filename b ts ".pdf"))
    ∧ (∀ v, (merge_pdfs fs paths out).2 = .ok v → v = joinPath OUTPUT_FOLDER out)
    ∧ (∀ v, (add_watermark fs pdf_path w out).2 = .ok v → v = joinPath OUTPUT_FOLDER out)
    ∧ (∀ v, (rotate_pdf fs pdf_path angle out).2 = .ok v → v = joinPath OUTPUT_FOLDER out)
    ∧ (create_cover_letter fs nm pos co em ph date out).2 =
        .ok (joinPath OUTPUT_FOLDER out)
    ∧ (generate_filename base ts1 ext = generate_filename base ts2 ext → ts1 = ts2) := by
  refine ⟨by simp [extract_text, hpdf], ?_, ?_, ?_, ?_, rfl,
    generate_filename_ts_inj base ext ts1 ts2⟩
  · intro outs houts o ho
    by_cases hk : k = 0
    · simp [split_pdf, hpdf, hk] at houts
    · simp only [split_pdf, hpdf] at houts
      rw [if_neg hk] at houts
      have houts2 : (splitOutputs doc k ts).map (fun o => joinPath OUTPUT_FOLDER o.1) =
          outs := Except.ok.inj houts
      rw [← houts2] at ho
      rcases List.mem_map.mp ho with ⟨e, he, heq⟩
      rcases List.mem_map.mp (by
        rw [splitOutputs] at he
        exact he) with ⟨sp, _, hsp⟩
      refine ⟨"split_pages_" ++ toString (sp + 1) ++ "-" ++
        toString (min (sp + k) doc.pages.length), ?_⟩
      rw [← heq, ← hsp]
  · intro v hv
    cases hr : readPdfs fs paths with
    | error e => simp [merge_pdfs, hr] at hv
    | ok docs =>
      simp only [merge_pdfs, hr] at hv
      exact (Except.ok.inj hv).symm
  · intro v hv
    simp only [add_watermark, hpdf] at hv
    exact (Except.ok.inj hv).symm
  · intro v hv
    cases hr : rotateAll doc.pages angle with
    | error e => simp [rotate_pdf, hpdf, hr] at hv
    | ok rotated =>
      simp only [rotate_pdf, hpdf, hr] at hv
      exact (Except.ok.inj hv).symm

/-- Witness for `artifact_naming`: concrete extract and watermark calls. -/
theorem artifact_naming_witness :
    (extract_text fsOneB (joinPath UPLOAD_FOLDER "b.pdf") "20240101_000000").2 =
      .ok (joinPath OUTPUT_FOLDER
            (generate_filename "extracted_text" "20240101_000000" ".txt"),
           previewOf (fullTextOf docB)) :=
  (artifact_naming fsOneB (joinPath UPLOAD_FOLDER "b.pdf") "W" "out.pdf"
    "20240101_000000" "t1" "t2" "b" ".pdf" 1 90 [] docB "N" "P" "C" "" "" "D" rfl).1


/-! ## C4: merge page counts -/

theorem lookupFile_removeUploaded_not_mem (fs : FS) (l : List String) (q : String)
    (hq : q ∉ l) :
    (removeUploaded fs l).lookupFile q = fs.lookupFile q := by
  rw [lookupFile_removeUploaded, if_neg hq]

/-- C4: merging N ≥ 2 staged valid PDFs produces exactly one artifact at the
caller-named output path whose page sequence is the concatenation of the
pages of the inputs in upload order, so its page count is the sum of the input
page counts. -/
theorem merge_page_count (fs : FS) (file_paths : List String) (docs : List Pdf)
    (output_filename : String)
    (hN : 2 ≤ file_paths.length)
    (hdocs : List.Forall₂ (fun p d => fs.lookupFile p = some (.pdf d)) file_paths docs)
    (hout : joinPath OUTPUT_FOLDER output_filename ∉ file_paths) :
    (merge_pdfs fs file_paths output_filename).2 =
        .ok (joinPath OUTPUT_FOLDER output_filename)
    ∧ ∃ m : Pdf,
        FS.lookupFile (merge_pdfs fs file_paths output_filename).1
            (joinPath OUTPUT_FOLDER output_filename) = some (.pdf m)
        ∧ m.pages = (docs.map Pdf.pages).flatten
        ∧ m.pages.length = (docs.map (fun d => d.pages.length)).sum := by
  have hr := readPdfs_ok_of_forall₂ fs hdocs
  refine ⟨by simp [merge_pdfs, hr], ⟨(docs.map Pdf.pages).flatten⟩, ?_, rfl, ?_⟩
  · simp only [merge_pdfs, hr]
    rw [lookupFile_removeUploaded_not_mem _ _ _ hout, lookupFile_setFile, if_pos rfl]
  · simp only [List.length_flatten, List.map_map]
    rfl

/-- Witness for `merge_page_count`: merging the staged 2-page `a.pdf` and
3-page `b.pdf` into `combined.pdf`. -/
theorem merge_page_count_witness :
    (merge_pdfs fsTwo
        [joinPath UPLOAD_FOLDER "a.pdf", joinPath UPLOAD_FOLDER "b.pdf"] "combined.pdf").2 =
      .ok (joinPath OUTPUT_FOLDER "combined.pdf")
    ∧ ∃ m : Pdf,
        FS.lookupFile
            (merge_pdfs fsTwo
              [joinPath UPLOAD_FOLDER "a.pdf", joinPath UPLOAD_FOLDER "b.pdf"]
              "combined.pdf").1
            (joinPath OUTPUT_FOLDER "combined.pdf") = some (.pdf m)
        ∧ m.pages = ([docA, docB].map Pdf.pages).flatten
        ∧ m.pages.length = ([docA, docB].map (fun d => d.pages.length)).sum :=
  merge_page_count fsTwo [joinPath UPLOAD_FOLDER "a.pdf", joinPath UPLOAD_FOLDER "b.pdf"]
    [docA, docB] "combined.pdf" (by decide)
    (List.Forall₂.cons rfl (List.Forall₂.cons rfl List.Forall₂.nil)) (by decide)


theorem ceil_div_succ (n k : Nat) (hk : k ≠ 0) (hn : 1 ≤ n) :
    (n + k - 1) / k = (n - k + k - 1) / k + 1 := by
  by_cases h : n ≤ k
  · have h1 : n - k = 0 := Nat.sub_eq_zero_of_le h
    rw [h1]
    have h2 : (0 + k - 1) / k = 0 := Nat.div_eq_of_lt (by omega)
    rw [h2]
    have h3 : n + k - 1 = (n - 1) + k := by omega
    rw [h3, Nat.add_div_right _ (by omega)]
    have h4 : (n - 1) / k = 0 := Nat.div_eq_of_lt (by omega)
    omega
  · have hkn : k < n := by omega
    have h3 : n + k - 1 = (n - 1) + k := by omega
    have h5 : n - k + k - 1 = (n - k - 1) + k := by omega
    rw [h3, h5, Nat.add_div_right _ (by omega), Nat.add_div_right _ (by omega)]
    have h6 : n - 1 = (n - k - 1) + k := by omega
    rw [h6, Nat.add_div_right _ (by omega)]

theorem chunks_flatten_aux {α : Type} (k : Nat) (hk : k ≠ 0) :
    ∀ (m : Nat) (l : List α), l.length ≤ m →
      ((List.range ((l.length + k - 1) / k)).map
        (fun i => (l.drop (i * k)).take k)).flatten = l := by
  intro m
  induction m with
  | zero =>
    intro l hl
    have h0 : l = [] := List.eq_nil_of_length_eq_zero (Nat.le_zero.mp hl)
    subst h0
    have h1 : (([] : List α).length + k - 1) / k = 0 := Nat.div_eq_of_lt (by omega)
    rw [h1]
    simp
  | succ m ih =>
    intro l hl
    match l with
    | [] =>
      have h1 : (([] : List α).length + k - 1) / k = 0 :=
        Nat.div_eq_of_lt (by simp; omega)
      rw [h1]
      simp
    | x :: xs =>
      have hn : 1 ≤ (x :: xs).length := by simp
      have hceil := ceil_div_succ (x :: xs).length k hk hn
      have hdroplen : ((x :: xs).drop k).length = (x :: xs).length - k :=
        List.length_drop k (x :: xs)
      rw [hceil, List.range_succ_eq_map, List.map_cons, List.flatten_cons,
        List.map_map]
      have hmapeq : (List.range (((x :: xs).length - k + k - 1) / k)).map
          ((fun i => ((x :: xs).drop (i * k)).take k) ∘ Nat.succ) =
        (List.range ((((x :: xs).drop k).length + k - 1) / k)).map
          (fun i => (((x :: xs).drop k).drop (i * k)).take k) := by
        rw [hdroplen]
        apply List.map_congr_left
        intro i _
        have hdd : ((x :: xs).drop k).drop (i * k) = (x :: xs).drop (Nat.succ i * k) := by
          rw [List.drop_drop]
          congr 1
          rw [Nat.succ_mul]
          omega
        simp only [Function.comp]
        rw [hdd]
      rw [Nat.zero_mul, List.drop_zero, hmapeq,
        ih ((x :: xs).drop k) (by rw [hdroplen]; simp at hl ⊢; omega)]
      exact List.take_append_drop k (x :: xs)

theorem splitOutputs_length (doc : Pdf) (k : Nat) (ts : String) :
    (splitOutputs doc k ts).length = (doc.pages.length + k - 1) / k := by
  simp [splitOutputs, pyRange]

theorem splitOutputs_getElem (doc : Pdf) (k : Nat) (ts : String) (i : Nat)
    (hi : i < (splitOutputs doc k ts).length) :
    (splitOutputs doc k ts)[i] =
      (generate_filename
          ("split_pages_" ++ toString (i * k + 1) ++ "-" ++
            toString (min (i * k + k) doc.pages.length)) ts ".pdf",
       ⟨(doc.pages.drop (i * k)).take (min (i * k + k) doc.pages.length - i * k)⟩) := by
  simp [splitOutputs, pyRange, List.getElem_map, List.getElem_range]

theorem take_min_sub {α : Type} (l : List α) (s k : Nat) :
    (l.drop s).take (min (s + k) l.length - s) = (l.drop s).take k := by
  by_cases h : s + k ≤ l.length
  · rw [Nat.min_eq_left h]
    congr 1
    omega
  · rw [Nat.min_eq_right (by omega)]
    have hlen : (l.drop s).length = l.length - s := List.length_drop s l
    rw [List.take_of_length_le (by omega), List.take_of_length_le (by omega)]

theorem splitOutputs_pages_flatten (doc : Pdf) (k : Nat) (ts : String) (hk : k ≠ 0) :
    ((splitOutputs doc k ts).map (fun o => o.2.pages)).flatten = doc.pages := by
  have h1 : (splitOutputs doc k ts).map (fun o => o.2.pages) =
      (List.range ((doc.pages.length + k - 1) / k)).map
        (fun i => (doc.pages.drop (i * k)).take k) := by
    simp only [splitOutputs, pyRange, List.map_map, Nat.sub_zero]
    apply List.map_congr_left
    intro i _
    simp only [Function.comp, Nat.zero_add]
    exact take_min_sub doc.pages (i * k) k
  rw [h1]
  exact chunks_flatten_aux k hk doc.pages.length doc.pages le_rfl

theorem ceil_bounds (n k : Nat) (hk : k ≠ 0) (hn : 1 ≤ n) :
    ((n + k - 1) / k - 1) * k + 1 ≤ n ∧ n ≤ ((n + k - 1) / k) * k := by
  have h3 : n + k - 1 = (n - 1) + k := by omega
  have hq2 : (n + k - 1) / k = (n - 1) / k + 1 := by
    rw [h3, Nat.add_div_right _ (by omega)]
  rw [hq2]
  have hdm := Nat.div_add_mod (n - 1) k
  have hmod : (n - 1) % k < k := Nat.mod_lt _ (by omega)
  have hcomm : k * ((n - 1) / k) = (n - 1) / k * k := Nat.mul_comm _ _
  have hmul : ((n - 1) / k + 1) * k = (n - 1) / k * k + k := by rw [Nat.succ_mul]
  constructor
  · simp only [Nat.add_sub_cancel]
    omega
  · rw [hmul]
    omega

theorem splitOutputs_chunk_sizes (doc : Pdf) (k : Nat) (ts : String) (i : Nat)
    (hk : k ≠ 0)
    (hi : i < (splitOutputs doc k ts).length) :
    (1 ≤ ((splitOutputs doc k ts)[i]).2.pages.length
      ∧ ((splitOutputs doc k ts)[i]).2.pages.length ≤ k)
    ∧ (i + 1 < (splitOutputs doc k ts).length →
        ((splitOutputs doc k ts)[i]).2.pages.length = k) := by
  have hlen := splitOutputs_length doc k ts
  have hn : 1 ≤ doc.pages.length := by
    by_contra hcon
    have h0 : doc.pages.length = 0 := by omega
    rw [hlen, h0] at hi
    have : (0 + k - 1) / k = 0 := Nat.div_eq_of_lt (by omega)
    omega
  have hget := splitOutputs_getElem doc k ts i hi
  have hplen : ((splitOutputs doc k ts)[i]).2.pages.length =
      min (min (i * k + k) doc.pages.length - i * k) (doc.pages.length - i * k) := by
    rw [hget]
    simp [List.length_take, List.length_drop]
  have hbounds := ceil_bounds doc.pages.length k hk hn
  rw [hlen] at hi
  -- i ≤ ceil - 1, so i * k ≤ (ceil - 1) * k ≤ n - 1
  have himul : i * k ≤ ((doc.pages.length + k - 1) / k - 1) * k :=
    Nat.mul_le_mul_right k (by omega)
  constructor
  · constructor
    · rw [hplen]
      omega
    · rw [hplen]
      omega
  · intro hfull
    rw [hlen] at hfull
    have hi1 : i + 1 ≤ (doc.pages.length + k - 1) / k - 1 := by omega
    have himul2 : (i + 1) * k ≤ ((doc.pages.length + k - 1) / k - 1) * k :=
      Nat.mul_le_mul_right k hi1
    have hsucc : (i + 1) * k = i * k + k := by rw [Nat.succ_mul]
    rw [hplen]
    omega

theorem lookupFile_foldl_setFile_not_mem (ws : List (String × FileContent)) :
    ∀ (fs : FS) (q : String), q ∉ ws.map Prod.fst →
      (ws.foldl (fun f o => f.setFile o.1 o.2) fs).lookupFile q = fs.lookupFile q := by
  induction ws with
  | nil => intro fs q _; rfl
  | cons w t ih =>
    intro fs q hq
    simp only [List.map_cons, List.mem_cons, not_or] at hq
    show (t.foldl _ (fs.setFile w.1 w.2)).lookupFile q = _
    rw [ih _ q hq.2, lookupFile_setFile, if_neg (fun hh => hq.1 hh.symm)]

theorem lookupFile_foldl_setFile_mem (ws : List (String × FileContent)) :
    ∀ (fs : FS) (p : String) (c : FileContent),
      (ws.map Prod.fst).Nodup → (p, c) ∈ ws →
      (ws.foldl (fun f o => f.setFile o.1 o.2) fs).lookupFile p = some c := by
  induction ws with
  | nil => intro fs p c _ hp; cases hp
  | cons w t ih =>
    intro fs p c hnd hp
    simp only [List.map_cons, List.nodup_cons] at hnd
    rcases List.mem_cons.mp hp with heq | hmem
    · have hw1 : w.1 = p := by rw [← heq]
      have hw2 : w.2 = c := by rw [← heq]
      show (t.foldl _ (fs.setFile w.1 w.2)).lookupFile p = some c
      rw [lookupFile_foldl_setFile_not_mem t _ p (by rw [← hw1]; exact hnd.1),
        lookupFile_setFile, if_pos hw1, hw2]
    · exact ih (fs.setFile w.1 w.2) p c hnd.2 hmem

/-- The post-state of a successful `split_pdf`: each produced artifact path
holds exactly its chunk (the generated chunk names are pairwise distinct,
which is supplied as `hnd`). -/
theorem split_state_lookup (fs : FS) (pdf_path ts : String) (k : Nat) (doc : Pdf)
    (h : fs.lookupFile pdf_path = some (.pdf doc)) (hk : k ≠ 0)
    (hnd : ((splitOutputs doc k ts).map (fun o => joinPath OUTPUT_FOLDER o.1)).Nodup)
    (hp : pdf_path ∉ (splitOutputs doc k ts).map (fun o => joinPath OUTPUT_FOLDER o.1))
    (o : String × Pdf) (ho : o ∈ splitOutputs doc k ts) :
    (split_pdf fs pdf_path k ts).1.lookupFile (joinPath OUTPUT_FOLDER o.1) =
      some (.pdf o.2) := by
  have hjo : joinPath OUTPUT_FOLDER o.1 ∈
      (splitOutputs doc k ts).map (fun o => joinPath OUTPUT_FOLDER o.1) :=
    List.mem_map_of_mem _ ho
  simp only [split_pdf, h]
  rw [if_neg hk, lookupFile_removeFile, if_neg (show ¬joinPath OUTPUT_FOLDER o.1 = pdf_path
    from fun hh => hp (hh ▸ hjo))]
  have hfold : (splitOutputs doc k ts).foldl
      (fun f o => f.setFile (joinPath OUTPUT_FOLDER o.1) (FileContent.pdf o.2)) fs =
    ((splitOutputs doc k ts).map
      (fun o => (joinPath OUTPUT_FOLDER o.1, FileContent.pdf o.2))).foldl
      (fun f w => f.setFile w.1 w.2) fs := by
    rw [List.foldl_map]
  rw [hfold]
  apply lookupFile_foldl_setFile_mem
  · simpa [List.map_map, Function.comp] using hnd
  · exact List.mem_map_of_mem _ ho

/-- C5: on an `n`-page PDF (`n ≥ 1`) with chunk size `k ≥ 1`, `split_pdf`
produces `⌈n/k⌉` artifacts whose page lists are the contiguous chunks of
`k` pages in order (flattening them recovers the original page sequence),
every chunk except possibly the last has exactly `k` pages, every chunk has
between 1 and `k` pages, and each artifact is named with the 1-based
inclusive page range of its chunk. -/
theorem split_partition_and_names (fs : FS) (pdf_path ts : String) (k : Nat) (doc : Pdf)
    (h : fs.lookupFile pdf_path = some (.pdf doc))
    (hn : 1 ≤ doc.pages.length) (hk : 1 ≤ k)
    (hnd : ((splitOutputs doc k ts).map (fun o => joinPath OUTPUT_FOLDER o.1)).Nodup)
    (hp : pdf_path ∉ (splitOutputs doc k ts).map (fun o => joinPath OUTPUT_FOLDER o.1)) :
    (split_pdf fs pdf_path k ts).2 =
        .ok ((splitOutputs doc k ts).map (fun o => joinPath OUTPUT_FOLDER o.1))
    ∧ (splitOutputs doc k ts).length = (doc.pages.length + k - 1) / k
    ∧ ((splitOutputs doc k ts).map (fun o => o.2.pages)).flatten = doc.pages
    ∧ (∀ i, ∀ hi : i < (splitOutputs doc k ts).length,
        ((splitOutputs doc k ts)[i]).2.pages = (doc.pages.drop (i * k)).take k
        ∧ ((splitOutputs doc k ts)[i]).1 =
            generate_filename
              ("split_pages_" ++ toString (i * k + 1) ++ "-" ++
                toString (min (i * k + k) doc.pages.length)) ts ".pdf"
        ∧ (1 ≤ ((splitOutputs doc k ts)[i]).2.pages.length
            ∧ ((splitOutputs doc k ts)[i]).2.pages.length ≤ k)
        ∧ (i + 1 < (splitOutputs doc k ts).length →
            ((splitOutputs doc k ts)[i]).2.pages.length = k)
        ∧ (split_pdf fs pdf_path k ts).1.lookupFile
            (joinPath OUTPUT_FOLDER ((splitOutputs doc k ts)[i]).1) =
            some (.pdf ((splitOutputs doc k ts)[i]).2)) := by
  have hk0 : k ≠ 0 := by omega
  refine ⟨?_, splitOutputs_length doc k ts, splitOutputs_pages_flatten doc k ts hk0, ?_⟩
  · simp only [split_pdf, h]
    rw [if_neg hk0]
  · intro i hi
    have hget := splitOutputs_getElem doc k ts i hi
    have hsizes := splitOutputs_chunk_sizes doc k ts i hk0 hi
    refine ⟨?_, ?_, hsizes.1, hsizes.2, ?_⟩
    · rw [hget]
      exact take_min_sub doc.pages (i * k) k
    · rw [hget]
    · exact split_state_lookup fs pdf_path ts k doc h hk0 hnd hp _
        (List.getElem_mem hi)

/-- Witness for `split_partition_and_names`: splitting the staged 3-page
`b.pdf` with 2 pages per file. -/
theorem split_partition_and_names_witness :
    (split_pdf fsOneB (joinPath UPLOAD_FOLDER "b.pdf") 2 "20240101_000000").2 =
        .ok ((splitOutputs docB 2 "20240101_000000").map
          (fun o => joinPath OUTPUT_FOLDER o.1))
    ∧ (splitOutputs docB 2 "20240101_000000").length = (docB.pages.length + 2 - 1) / 2
    ∧ ((splitOutputs docB 2 "20240101_000000").map (fun o => o.2.pages)).flatten =
        docB.pages := by
  have hthm := split_partition_and_names fsOneB (joinPath UPLOAD_FOLDER "b.pdf")
    "20240101_000000" 2 docB rfl (by decide) (by decide) (by decide) (by decide)
  exact ⟨hthm.1, hthm.2.1, hthm.2.2.1⟩

/-- C6: splitting a staged PDF into chunks of `k ≥ 1` pages and then merging
all produced parts in order yields an artifact whose page sequence is
identical to that of the original document. -/
theorem split_merge_roundtrip (fs : FS) (pdf_path ts out : String) (k : Nat) (doc : Pdf)
    (h : fs.lookupFile pdf_path = some (.pdf doc)) (hk : 1 ≤ k)
    (hnd : ((splitOutputs doc k ts).map (fun o => joinPath OUTPUT_FOLDER o.1)).Nodup)
    (hp : pdf_path ∉ (splitOutputs doc k ts).map (fun o => joinPath OUTPUT_FOLDER o.1))
    (hout : joinPath OUTPUT_FOLDER out ∉
        (splitOutputs doc k ts).map (fun o => joinPath OUTPUT_FOLDER o.1)) :
    (split_pdf fs pdf_path k ts).2 =
        .ok ((splitOutputs doc k ts).map (fun o => joinPath OUTPUT_FOLDER o.1))
    ∧ (merge_pdfs (split_pdf fs pdf_path k ts).1
          ((splitOutputs doc k ts).map (fun o => joinPath OUTPUT_FOLDER o.1)) out).2 =
        .ok (joinPath OUTPUT_FOLDER out)
    ∧ ∃ m : Pdf,
        FS.lookupFile
            (merge_pdfs (split_pdf fs pdf_path k ts).1
              ((splitOutputs doc k ts).map (fun o => joinPath OUTPUT_FOLDER o.1)) out).1
            (joinPath OUTPUT_FOLDER out) = some (.pdf m)
        ∧ m.pages = doc.pages := by
  have hk0 : k ≠ 0 := by omega
  have hf : List.Forall₂
      (fun p d => (split_pdf fs pdf_path k ts).1.lookupFile p = some (.pdf d))
      ((splitOutputs doc k ts).map (fun o => joinPath OUTPUT_FOLDER o.1))
      ((splitOutputs doc k ts).map Prod.snd) := by
    rw [List.forall₂_map_left_iff, List.forall₂_map_right_iff, List.forall₂_same]
    intro o ho
    exact split_state_lookup fs pdf_path ts k doc h hk0 hnd hp o ho
  have hread := readPdfs_ok_of_forall₂ _ hf
  refine ⟨?_, ?_, ⟨(((splitOutputs doc k ts).map Prod.snd).map Pdf.pages).flatten⟩, ?_, ?_⟩
  · simp only [split_pdf, h]
    rw [if_neg hk0]
  · simp [merge_pdfs, hread]
  · simp only [merge_pdfs, hread]
    rw [lookupFile_removeUploaded_not_mem _ _ _ hout, lookupFile_setFile, if_pos rfl]
  · show (((splitOutputs doc k ts).map Prod.snd).map Pdf.pages).flatten = doc.pages
    rw [List.map_map]
    exact splitOutputs_pages_flatten doc k ts hk0

/-- Witness for `split_merge_roundtrip`: split the staged 3-page `b.pdf`
with 2 pages per file, then merge the two parts back into
`roundtrip.pdf`. -/
theorem split_merge_roundtrip_witness :
    (merge_pdfs (split_pdf fsOneB (joinPath UPLOAD_FOLDER "b.pdf") 2 "20240101_000000").1
        ((splitOutputs docB 2 "20240101_000000").map
          (fun o => joinPath OUTPUT_FOLDER o.1)) "roundtrip.pdf").2 =
      .ok (joinPath OUTPUT_FOLDER "roundtrip.pdf") := by
  have hthm := split_merge_roundtrip fsOneB (joinPath UPLOAD_FOLDER "b.pdf")
    "20240101_000000" "roundtrip.pdf" 2 docB rfl (by decide) (by decide) (by decide)
    (by decide)
  exact hthm.2.1

end PdfTool
